import Mathlib

/-!
# AHT30 sensor read: checksum, frame decoding and bus sequencing

Shallow embedding of `src/daemons/aht30/src/aht30_sensor.cpp`.

* `uint8_t` / `uint32_t` values are natural numbers; every assignment that
  truncates in the source carries an explicit `% 256` (or `% 2 ^ 32`).
* `int` / `ssize_t` return codes are integers.
* `double` values are rationals: the three conversions are read as exact
  arithmetic.  `humidity` and `temp_c` are dyadic rationals with a numerator
  below `2 ^ 53`, so they are exactly what the `double` computation yields;
  `temp_f` divides by five and is exact only in the rational reading.
* The system calls `open`, `ioctl`, `write`, `usleep`, `read`, `close` are
  primitives that append themselves to an explicit trace; their return values
  (and the `strerror(errno)` text of a failure) come from a `Bus` record.
-/

namespace Aht30

open Polynomial

/-! ## Constants (`aht30_sensor.cpp`, lines 12-17) -/

/-- The macro `AHT30_ADDR_DEFAULT`. -/
def AHT30_ADDR_DEFAULT : Int := 0x38

/-- The array `MEASURE_CMD`. -/
def MEASURE_CMD : List Nat := [0xAC, 0x33, 0x00]

/-- The constant `MEASURE_DELAY_US` (80 ms). -/
def MEASURE_DELAY_US : Nat := 80000

/-- The constant `READ_LEN`. -/
def READ_LEN : Nat := 7

/-! ## `crc8_aht` (lines 19-30) -/

/-- Body of the inner loop of `crc8_aht` (lines 25-26): one shift of the
register. -/
def crc8_bit (crc : Nat) : Nat :=
  if crc &&& 0x80 ≠ 0 then ((crc <<< 1) ^^^ 0x31) % 256 else (crc <<< 1) % 256

/-- Inner loop of `crc8_aht`: `for (int b = 0; b < 8; ++b)`, with the number of
remaining iterations as first argument. -/
def crc8_bits : Nat → Nat → Nat
  | 0, crc => crc
  | b + 1, crc => crc8_bits b (crc8_bit crc)

/-- Outer loop of `crc8_aht`: `for (size_t i = 0; i < len; ++i)`, with the number
of remaining iterations, the index `i` and the register `crc`. -/
def crc8_loop (data : List Nat) : Nat → Nat → Nat → Nat
  | 0, _, crc => crc
  | n + 1, i, crc => crc8_loop data n (i + 1) (crc8_bits 8 ((crc ^^^ data.getD i 0) % 256))

/-- The function `crc8_aht(data, len)`. -/
def crc8_aht (data : List Nat) (len : Nat) : Nat :=
  crc8_loop data len 0 0xFF

/-! ## Result types (`aht30_sensor.h`) -/

/-- The struct `Aht30Reading`. -/
structure Aht30Reading where
  temp_c : ℚ := 0
  temp_f : ℚ := 0
  humidity : ℚ := 0
  status : Nat := 0
  busy : Bool := false
deriving DecidableEq

/-- The struct `Aht30Result`. -/
structure Aht30Result where
  ok : Bool := false
  reading : Aht30Reading := {}
  error : String := ""
deriving DecidableEq

/-! ## The bus -/

/-- One system call on the I2C character device. -/
inductive BusOp where
  | opOpen (path : String)
  | opIoctl (fd : Int) (addr : Int)
  | opWrite (fd : Int) (bytes : List Nat)
  | opUsleep (us : Nat)
  | opRead (fd : Int) (len : Nat)
  | opClose (fd : Int)
deriving DecidableEq

/-- Outcomes of the system calls of one invocation: the return value of each
call, the bytes left in `buf` by `read`, and the `strerror(errno)` text seen
after each call. -/
structure Bus where
  open_ret : Int
  ioctl_ret : Int
  write_ret : Int
  read_ret : Int
  read_buf : List Nat
  open_errno : String
  ioctl_errno : String
  write_errno : String
  read_errno : String

/-- Computations that log their system calls. -/
abbrev BusM := StateM (List BusOp)

/-- The call `open(path, O_RDWR)`. -/
def sys_open (bus : Bus) (path : String) : BusM Int :=
  fun tr => (bus.open_ret, tr ++ [BusOp.opOpen path])

/-- The call `ioctl(fd, I2C_SLAVE, addr)`. -/
def sys_ioctl (bus : Bus) (fd addr : Int) : BusM Int :=
  fun tr => (bus.ioctl_ret, tr ++ [BusOp.opIoctl fd addr])

/-- The call `write(fd, bytes, sizeof bytes)`. -/
def sys_write (bus : Bus) (fd : Int) (bytes : List Nat) : BusM Int :=
  fun tr => (bus.write_ret, tr ++ [BusOp.opWrite fd bytes])

/-- The call `usleep(us)`. -/
def sys_usleep (us : Nat) : BusM Unit :=
  fun tr => ((), tr ++ [BusOp.opUsleep us])

/-- The call `read(fd, buf, len)`: the return value and the buffer contents. -/
def sys_read (bus : Bus) (fd : Int) (len : Nat) : BusM (Int × List Nat) :=
  fun tr => ((bus.read_ret, bus.read_buf), tr ++ [BusOp.opRead fd len])

/-- The call `close(fd)`. -/
def sys_close (fd : Int) : BusM Unit :=
  fun tr => ((), tr ++ [BusOp.opClose fd])

/-! ## `read_aht30_once` (lines 32-109) -/

/-- The library function `std::to_string(int)`: the decimal numeral. -/
def to_string (n : Int) : String :=
  if n < 0 then "-" ++ Nat.repr n.natAbs else Nat.repr n.toNat

/-- The local `rh_raw` (lines 86-89). -/
def rh_raw (buf : List Nat) : Nat :=
  (((buf.getD 1 0 <<< 12) % 2 ^ 32) |||
   ((buf.getD 2 0 <<< 4) % 2 ^ 32) |||
   ((buf.getD 3 0 >>> 4) &&& 0x0F)) % 2 ^ 32

/-- The local `t_raw` (lines 91-94). -/
def t_raw (buf : List Nat) : Nat :=
  ((((buf.getD 3 0 &&& 0x0F) <<< 16) % 2 ^ 32) |||
   ((buf.getD 4 0 <<< 8) % 2 ^ 32) |||
   buf.getD 5 0) % 2 ^ 32

/-- The error text of a failed `open` (line 39). -/
def open_failed_text (i2c_device errno_text : String) : String :=
  "Failed to open I2C device " ++ i2c_device ++ ": " ++ errno_text

/-- The error text of a failed `ioctl` (line 45). -/
def select_failed_text (addr : Int) (errno_text : String) : String :=
  "Failed to select I2C slave 0x" ++ to_string addr ++ ": " ++ errno_text

/-- The error text of a failed `write` (line 53). -/
def write_failed_text (errno_text : String) : String :=
  "Failed to write measurement command: " ++ errno_text

/-- The error text of a failed `read` (line 65). -/
def read_failed_text (errno_text : String) : String :=
  "Failed to read AHT30 data: " ++ errno_text

/-- The error text of the checksum failure (lines 80-81). -/
def crc_mismatch_text (crc_calc crc_recv : Nat) : String :=
  "CRC mismatch: calculated 0x" ++ to_string (crc_calc : Int) ++
    " but received 0x" ++ to_string (crc_recv : Int)

/-- Lines 72-108 of `read_aht30_once`: what happens to `buf` after a complete
read. -/
def decode (buf : List Nat) : Aht30Result :=
  let busy : Bool := buf.getD 0 0 &&& 0x80 ≠ 0
  let crc_calc := crc8_aht buf 6
  let crc_recv := buf.getD 6 0
  if crc_calc ≠ crc_recv then
    { ok := false, error := crc_mismatch_text crc_calc crc_recv }
  else
    let humidity : ℚ := ((rh_raw buf : ℚ) / 1048576) * 100
    let tempC : ℚ := ((t_raw buf : ℚ) / 1048576) * 200 - 50
    let tempF : ℚ := (tempC * 9 / 5) + 32
    { ok := true
      reading :=
        { temp_c := tempC, temp_f := tempF, humidity := humidity,
          status := buf.getD 0 0, busy := busy } }

/-- The function `read_aht30_once(i2c_device, i2c_addr)`. -/
def read_aht30_once (bus : Bus) (i2c_device : String) (i2c_addr : Int) : BusM Aht30Result := do
  let addr : Int := if i2c_addr = 0 then AHT30_ADDR_DEFAULT else i2c_addr
  let file ← sys_open bus i2c_device
  if file < 0 then
    pure { ok := false, error := open_failed_text i2c_device bus.open_errno }
  else
    let rc ← sys_ioctl bus file addr
    if rc < 0 then
      sys_close file
      pure { ok := false, error := select_failed_text addr bus.ioctl_errno }
    else
      let w ← sys_write bus file MEASURE_CMD
      if w ≠ (MEASURE_CMD.length : Int) then
        sys_close file
        pure { ok := false, error := write_failed_text bus.write_errno }
      else
        sys_usleep MEASURE_DELAY_US
        let (r, buf) ← sys_read bus file READ_LEN
        if r ≠ (READ_LEN : Int) then
          sys_close file
          pure { ok := false, error := read_failed_text bus.read_errno }
        else
          sys_close file
          pure (decode buf)

/-- Result and trace of one invocation started on an empty trace. -/
def run_once (bus : Bus) (i2c_device : String) (i2c_addr : Int) :
    Aht30Result × List BusOp :=
  (read_aht30_once bus i2c_device i2c_addr).run []

/-! ## Vocabulary of the specification -/

/-- The checksum as the specification words it: the register starts at `0xFF`;
one shift replaces it by `((crc << 1) XOR 0x31) mod 256` when its top bit is set
and by `(crc << 1) mod 256` otherwise. -/
def crc8_spec_shift (crc : Nat) : Nat :=
  if crc.testBit 7 then ((crc <<< 1) ^^^ 0x31) % 256 else (crc <<< 1) % 256

/-- The checksum as the specification words it: for each byte in order the
register is XORed with the byte and then shifted eight times. -/
def crc8_spec (data : List Nat) : Nat :=
  data.foldl (fun crc byte => crc8_spec_shift^[8] (crc ^^^ byte)) 0xFF

/-- The number whose base-256 digits, most significant first, are the bytes:
the message read as one bit string. -/
def msg_value (data : List Nat) : Nat :=
  data.foldl (fun acc byte => acc * 256 + byte) 0

/-- The polynomial over GF(2) whose coefficient of `X ^ i` is bit `i` of `n`. -/
noncomputable def natPoly (n : Nat) : (ZMod 2)[X] :=
  ∑ i in Finset.range (n + 1), if n.testBit i then X ^ i else 0

/-- The generator `x^8 + x^5 + x^4 + 1`. -/
noncomputable def gen : (ZMod 2)[X] := X ^ 8 + X ^ 5 + X ^ 4 + 1

/-- Inverse of one register shift on bytes. -/
def crc8_unbit (crc : Nat) : Nat :=
  if crc % 2 = 1 then ((crc ^^^ 0x31) >>> 1) ||| 0x80 else crc >>> 1

/-- One step of the outer loop as a function of register and byte. -/
def crc8_byte (crc byte : Nat) : Nat := crc8_bits 8 ((crc ^^^ byte) % 256)

/-- The bus outcomes of a complete read: every call succeeds and `read` leaves
`buf` in the buffer. -/
def BusDelivers (bus : Bus) (buf : List Nat) : Prop :=
  0 ≤ bus.open_ret ∧ 0 ≤ bus.ioctl_ret ∧ bus.write_ret = 3 ∧ bus.read_ret = 7 ∧
    bus.read_buf = buf

instance (bus : Bus) (buf : List Nat) : Decidable (BusDelivers bus buf) := by
  unfold BusDelivers
  infer_instance

/-- A frame: seven values of type `uint8_t`. -/
def IsFrame (buf : List Nat) : Prop :=
  buf.length = 7 ∧ ∀ b ∈ buf, b < 256

instance (buf : List Nat) : Decidable (IsFrame buf) := by
  unfold IsFrame
  infer_instance

/-- The system calls of a complete read, in order. -/
def full_trace (fd : Int) (i2c_device : String) (addr : Int) : List BusOp :=
  [BusOp.opOpen i2c_device, BusOp.opIoctl fd addr, BusOp.opWrite fd [0xAC, 0x33, 0x00],
   BusOp.opUsleep 80000, BusOp.opRead fd 7, BusOp.opClose fd]

/-- A bus on which every call succeeds (descriptor 3) and `read` returns `buf`. -/
def good_bus (buf : List Nat) : Bus :=
  { open_ret := 3, ioctl_ret := 0, write_ret := 3, read_ret := 7, read_buf := buf,
    open_errno := "", ioctl_errno := "", write_errno := "", read_errno := "" }

/-- The frame of the round-trip property, as the specification builds it from a
status byte and two 20-bit raw values. -/
def encode_frame (s h t : Nat) : List Nat :=
  [s, h >>> 12, (h >>> 4) &&& 0xFF, ((h &&& 0xF) <<< 4) ||| (t >>> 16), (t >>> 8) &&& 0xFF,
   t &&& 0xFF,
   crc8_aht [s, h >>> 12, (h >>> 4) &&& 0xFF, ((h &&& 0xF) <<< 4) ||| (t >>> 16),
     (t >>> 8) &&& 0xFF, t &&& 0xFF] 6]

/-- The frame with bit `k % 8` of byte `k / 8` flipped. -/
def flip_bit (buf : List Nat) (k : Nat) : List Nat :=
  buf.set (k / 8) (buf.getD (k / 8) 0 ^^^ (1 <<< (k % 8)))

/-- Value of one hexadecimal digit. -/
def hex_digit (c : Char) : Option Nat :=
  if '0' ≤ c ∧ c ≤ '9' then some (c.toNat - 48)
  else if 'a' ≤ c ∧ c ≤ 'f' then some (c.toNat - 87)
  else if 'A' ≤ c ∧ c ≤ 'F' then some (c.toNat - 55)
  else none

/-- Value of a hexadecimal numeral, most significant digit first. -/
def hex_value (s : String) : Option Nat :=
  s.data.foldl (fun acc c => acc.bind fun a => (hex_digit c).map fun d => a * 16 + d) (some 0)

/-! ## Two calls on one bus -/

/-- Whether a system call is an `open`. -/
def is_open : BusOp → Bool
  | BusOp.opOpen _ => true
  | _ => false

/-- Whether a system call is a `close`. -/
def is_close : BusOp → Bool
  | BusOp.opClose _ => true
  | _ => false

/-- The system calls of one of two calls (`false` the first, `true` the second)
in a schedule, in order. -/
def project (c : Bool) (m : List (Bool × BusOp)) : List BusOp :=
  (m.filter (fun x => x.1 == c)).map Prod.snd

/-- A schedule `m` is an interleaving of the traces `t1` and `t2` of two calls:
it holds exactly the system calls of each, each call's in its own order. -/
def IsInterleaving (t1 t2 : List BusOp) (m : List (Bool × BusOp)) : Prop :=
  project false m = t1 ∧ project true m = t2

instance (t1 t2 : List BusOp) (m : List (Bool × BusOp)) :
    Decidable (IsInterleaving t1 t2 m) := by
  unfold IsInterleaving
  infer_instance

/-- The call that issues position `i` of a schedule. -/
def tag_at (m : List (Bool × BusOp)) (i : Nat) : Bool :=
  (m.getD i (true, BusOp.opUsleep 0)).1

/-- The system call at position `i` of a schedule. -/
def op_at (m : List (Bool × BusOp)) (i : Nat) : BusOp :=
  (m.getD i (true, BusOp.opUsleep 0)).2

/-- A call holds the handle from position `i` to position `k` of a schedule:
position `i` is an `open`, position `k` a `close`, both of the same call. -/
def HoldsHandle (m : List (Bool × BusOp)) (i k : Nat) : Prop :=
  is_open (op_at m i) = true ∧ is_close (op_at m k) = true ∧ tag_at m i = tag_at m k

instance (m : List (Bool × BusOp)) (i k : Nat) : Decidable (HoldsHandle m i k) := by
  unfold HoldsHandle
  infer_instance

/-- Mutual exclusion around open..close: between the `open` of a call and the
`close` of the same call, every system call of the schedule is of that call. -/
def MutualExclusion (m : List (Bool × BusOp)) : Prop :=
  ∀ k < m.length, ∀ j < k, ∀ i < j, HoldsHandle m i k → tag_at m j = tag_at m i

instance (m : List (Bool × BusOp)) : Decidable (MutualExclusion m) := by
  unfold MutualExclusion
  infer_instance

/-- The schedule that runs the first call to its return and then the second. -/
def first_then_second (t1 t2 : List BusOp) : List (Bool × BusOp) :=
  t1.map (fun a => (false, a)) ++ t2.map (fun a => (true, a))

/-- The schedule that runs the second call to its return and then the first. -/
def second_then_first (t1 t2 : List BusOp) : List (Bool × BusOp) :=
  t2.map (fun a => (true, a)) ++ t1.map (fun a => (false, a))

/-- The schedule in which the second call runs right after the first system
call of the first call, before the rest of the first call. -/
def second_inside_first (t1 t2 : List BusOp) : List (Bool × BusOp) :=
  (t1.take 1).map (fun a => (false, a)) ++
    (t2.map (fun a => (true, a)) ++ (t1.drop 1).map (fun a => (false, a)))

/-- The schedule in which the first call runs right after the first system
call of the second call, before the rest of the second call. -/
def first_inside_second (t1 t2 : List BusOp) : List (Bool × BusOp) :=
  (t2.take 1).map (fun a => (true, a)) ++
    (t1.map (fun a => (false, a)) ++ (t2.drop 1).map (fun a => (true, a)))

/-- A bus on which every call succeeds, `open` returns the descriptor `fd` and
`read` returns `buf`. -/
def good_bus_fd (fd : Int) (buf : List Nat) : Bus :=
  { open_ret := fd, ioctl_ret := 0, write_ret := 3, read_ret := 7, read_buf := buf,
    open_errno := "", ioctl_errno := "", write_errno := "", read_errno := "" }

/-- Two `/read` requests served at the same time (`aht30_daemon.cpp`, lines
42-43: each handler calls `read_aht30_once("/dev/i2c-1", 0x38)`), their system
calls alternating; the first call holds descriptor 3, the second descriptor 4. -/
def racing_schedule : List (Bool × BusOp) :=
  [(false, BusOp.opOpen "/dev/i2c-1"), (true, BusOp.opOpen "/dev/i2c-1"),
   (false, BusOp.opIoctl 3 0x38), (true, BusOp.opIoctl 4 0x38),
   (false, BusOp.opWrite 3 [0xAC, 0x33, 0x00]), (true, BusOp.opWrite 4 [0xAC, 0x33, 0x00]),
   (false, BusOp.opUsleep 80000), (true, BusOp.opUsleep 80000),
   (false, BusOp.opRead 3 7), (true, BusOp.opRead 4 7),
   (false, BusOp.opClose 3), (true, BusOp.opClose 4)]

/-! ## The checksum -/

theorem crc8_bit_lt (c : Nat) : crc8_bit c < 256 := by
  unfold crc8_bit
  split <;> exact Nat.mod_lt _ (by norm_num)

theorem crc8_bits_lt (n c : Nat) (hc : c < 256) : crc8_bits n c < 256 := by
  induction n generalizing c with
  | zero => simpa [crc8_bits] using hc
  | succ n ih => simpa [crc8_bits] using ih _ (crc8_bit_lt c)

theorem crc8_byte_lt (c b : Nat) : crc8_byte c b < 256 :=
  crc8_bits_lt 8 _ (Nat.mod_lt _ (by norm_num))

set_option maxRecDepth 100000 in
theorem crc8_bit_table :
    ∀ c < 256, crc8_bit c = (2 * c) ^^^ (if c < 128 then 0 else 0x131) := by
  decide

set_option maxRecDepth 100000 in
theorem crc8_bit_spec_table : ∀ c < 256, crc8_bit c = crc8_spec_shift c := by
  decide

set_option maxRecDepth 100000 in
theorem crc8_unbit_bit : ∀ c < 256, crc8_unbit (crc8_bit c) = c := by
  decide

theorem crc8_loop_eq_foldl (data : List Nat) (n i c : Nat) (h : i + n ≤ data.length) :
    crc8_loop data n i c = ((data.drop i).take n).foldl crc8_byte c := by
  induction n generalizing i c with
  | zero => simp [crc8_loop]
  | succ n ih =>
    have hi : i < data.length := by omega
    rw [crc8_loop, ih (i + 1) _ (by omega)]
    rw [List.drop_eq_getElem_cons hi, List.take_succ_cons, List.foldl_cons,
      List.getD_eq_getElem _ _ hi]
    rfl

theorem crc8_aht_eq_foldl (data : List Nat) (len : Nat) (h : len ≤ data.length) :
    crc8_aht data len = (data.take len).foldl crc8_byte 0xFF := by
  unfold crc8_aht
  rw [crc8_loop_eq_foldl data len 0 _ (by omega)]
  simp

/-! ## Polynomials over GF(2) -/

theorem coeff_natPoly (n k : Nat) :
    (natPoly n).coeff k = if n.testBit k then 1 else 0 := by
  unfold natPoly
  rw [Polynomial.finset_sum_coeff]
  by_cases hk : k < n + 1
  · rw [Finset.sum_eq_single k]
    · by_cases hb : n.testBit k <;> simp [hb]
    · intro i _ hik
      by_cases hb : n.testBit i <;> simp [hb, Polynomial.coeff_X_pow, Ne.symm hik]
    · intro hnot
      exact absurd (Finset.mem_range.mpr hk) hnot
  · have hlt : n < 2 ^ k :=
      lt_of_lt_of_le (Nat.lt_two_pow n) (Nat.pow_le_pow_right (by norm_num) (by omega))
    rw [Nat.testBit_eq_false_of_lt hlt]
    simp only [Bool.false_eq_true, if_false]
    apply Finset.sum_eq_zero
    intro i hi
    have hik : k ≠ i := by
      have := Finset.mem_range.mp hi
      omega
    by_cases hb : n.testBit i <;> simp [hb, Polynomial.coeff_X_pow, hik]

theorem natPoly_xor (a b : Nat) : natPoly (a ^^^ b) = natPoly a + natPoly b := by
  ext k
  rw [Polynomial.coeff_add, coeff_natPoly, coeff_natPoly, coeff_natPoly, Nat.testBit_xor]
  cases a.testBit k <;> cases b.testBit k <;> simp
  rfl

theorem natPoly_two_mul (n : Nat) : natPoly (2 * n) = X * natPoly n := by
  ext k
  cases k with
  | zero => simp [coeff_natPoly, Nat.testBit_zero]
  | succ k =>
    rw [Polynomial.coeff_X_mul, coeff_natPoly, coeff_natPoly, Nat.testBit_succ]
    simp

theorem natPoly_pow_mul (m n : Nat) : natPoly (2 ^ m * n) = X ^ m * natPoly n := by
  induction m with
  | zero => simp
  | succ m ih => rw [pow_succ, mul_comm (2 ^ m) 2, mul_assoc, natPoly_two_mul, ih]; ring

theorem natPoly_degree_lt (n m : Nat) (h : n < 2 ^ m) : (natPoly n).degree < m := by
  rw [Polynomial.degree_lt_iff_coeff_zero]
  intro k hk
  rw [coeff_natPoly, Nat.testBit_eq_false_of_lt
    (lt_of_lt_of_le h (Nat.pow_le_pow_right (by norm_num) hk))]
  simp

theorem natPoly_injective (a b : Nat) (h : natPoly a = natPoly b) : a = b := by
  apply Nat.eq_of_testBit_eq
  intro i
  have hc := congrArg (fun p : (ZMod 2)[X] => p.coeff i) h
  simp only [coeff_natPoly] at hc
  cases ha : a.testBit i <;> cases hb : b.testBit i <;> simp [ha, hb] at hc ⊢

theorem natPoly_gen : natPoly 0x131 = gen := by
  ext k
  rw [coeff_natPoly]
  by_cases hk : k < 9
  · interval_cases k <;> simp [gen, Polynomial.coeff_X_pow, Polynomial.coeff_one] <;> decide
  · rw [Nat.testBit_eq_false_of_lt
      (lt_of_lt_of_le (by norm_num : 0x131 < 2 ^ 9) (Nat.pow_le_pow_right (by norm_num) (by omega)))]
    have h8 : k ≠ 8 := by omega
    have h5 : k ≠ 5 := by omega
    have h4 : k ≠ 4 := by omega
    have h0 : k ≠ 0 := by omega
    simp [gen, Polynomial.coeff_X_pow, Polynomial.coeff_one, h8, h5, h4, h0]

theorem gen_monic : gen.Monic := by
  unfold gen
  monicity!

theorem gen_degree : gen.degree = 8 := by
  unfold gen
  compute_degree!

theorem mod_gen_of_lt (p : (ZMod 2)[X]) (h : p.degree < 8) : p %ₘ gen = p := by
  rw [Polynomial.modByMonic_eq_self_iff gen_monic, gen_degree]
  exact h

theorem mul_mod_gen (a p q : (ZMod 2)[X]) :
    (a * (p %ₘ gen) + q) %ₘ gen = (a * p + q) %ₘ gen := by
  apply Polynomial.modByMonic_eq_of_dvd_sub gen_monic
  have h := Polynomial.modByMonic_add_div p gen_monic
  refine ⟨-(a * (p /ₘ gen)), ?_⟩
  calc a * (p %ₘ gen) + q - (a * p + q)
      = a * (p %ₘ gen) - a * (p %ₘ gen + gen * (p /ₘ gen)) := by rw [h]; ring
    _ = gen * -(a * (p /ₘ gen)) := by ring

theorem natPoly_crc8_bit (c : Nat) (hc : c < 256) :
    natPoly (crc8_bit c) = (X * natPoly c) %ₘ gen := by
  have hdeg : (natPoly (crc8_bit c)).degree < 8 := natPoly_degree_lt _ 8 (crc8_bit_lt c)
  rw [← mod_gen_of_lt _ hdeg, crc8_bit_table c hc, natPoly_xor, natPoly_two_mul]
  by_cases h : c < 128
  · simp [h, natPoly]
  · rw [if_neg h, natPoly_gen]
    apply Polynomial.modByMonic_eq_of_dvd_sub gen_monic
    exact ⟨1, by ring⟩

theorem natPoly_crc8_bits (n c : Nat) (hc : c < 256) :
    natPoly (crc8_bits n c) = (X ^ n * natPoly c) %ₘ gen := by
  induction n generalizing c with
  | zero =>
    rw [crc8_bits, pow_zero, one_mul, mod_gen_of_lt _ (natPoly_degree_lt _ 8 hc)]
  | succ n ih =>
    rw [crc8_bits, ih _ (crc8_bit_lt c), natPoly_crc8_bit c hc]
    have h := mul_mod_gen (X ^ n) (X * natPoly c) 0
    simp only [add_zero] at h
    rw [h, pow_succ, mul_assoc]

theorem natPoly_crc8_byte (c b : Nat) (hc : c < 256) (hb : b < 256) :
    natPoly (crc8_byte c b) = (X ^ 8 * (natPoly c + natPoly b)) %ₘ gen := by
  have hx : c ^^^ b < 256 := Nat.xor_lt_two_pow (n := 8) hc hb
  unfold crc8_byte
  rw [Nat.mod_eq_of_lt hx, natPoly_crc8_bits 8 _ hx, natPoly_xor]

theorem natPoly_mul_256_add (m b : Nat) (hb : b < 256) :
    natPoly (m * 256 + b) = X ^ 8 * natPoly m + natPoly b := by
  have h : m * 256 + b = (2 ^ 8 * m) ^^^ b := by
    rw [Nat.mul_comm m 256]
    refine (Nat.mul_add_lt_is_or (i := 8) hb m).trans ?_
    apply Nat.eq_of_testBit_eq
    intro i
    rw [Nat.testBit_or, Nat.testBit_xor]
    by_cases hi : i < 8
    · have h1 : (2 ^ 8 * m).testBit i = false := by
        rw [Nat.testBit_mul_pow_two]
        simp [hi]
      rw [h1]
      simp
    · have h8 : (2 : Nat) ^ 8 ≤ 2 ^ i := Nat.pow_le_pow_right (by norm_num) (by omega)
      have h2 : b.testBit i = false :=
        Nat.testBit_eq_false_of_lt (lt_of_lt_of_le hb h8)
      rw [h2]
      simp
  rw [h, natPoly_xor, natPoly_pow_mul]

theorem msg_value_append (l : List Nat) (b : Nat) :
    msg_value (l ++ [b]) = msg_value l * 256 + b := by
  simp [msg_value, List.foldl_append]

theorem foldl_crc8_byte_lt (l : List Nat) (c : Nat) (hc : c < 256) :
    l.foldl crc8_byte c < 256 := by
  induction l using List.reverseRecOn with
  | nil => simpa using hc
  | append_singleton l b _ => rw [List.foldl_append]; exact crc8_byte_lt _ _

theorem natPoly_foldl_crc8_byte (l : List Nat) (c : Nat) (hc : c < 256)
    (hl : ∀ b ∈ l, b < 256) :
    natPoly (l.foldl crc8_byte c) =
      (X ^ (8 * l.length) * natPoly c + X ^ 8 * natPoly (msg_value l)) %ₘ gen := by
  induction l using List.reverseRecOn with
  | nil =>
    have h0 : natPoly (msg_value []) = 0 := by simp [msg_value, natPoly]
    rw [h0]
    simp only [List.foldl_nil, List.length_nil, mul_zero, pow_zero, one_mul, add_zero]
    exact (mod_gen_of_lt _ (natPoly_degree_lt _ 8 hc)).symm
  | append_singleton l b ih =>
    have hb : b < 256 := hl b (by simp)
    have hl2 : ∀ x ∈ l, x < 256 := fun x hx => hl x (by simp [hx])
    rw [List.foldl_append, List.foldl_cons, List.foldl_nil,
      natPoly_crc8_byte _ _ (foldl_crc8_byte_lt l c hc) hb, ih hl2, msg_value_append,
      natPoly_mul_256_add _ _ hb, mul_add, mul_mod_gen]
    congr 1
    rw [List.length_append, List.length_singleton]
    ring

theorem crc8_bits_eq_iterate (n c : Nat) (hc : c < 256) :
    crc8_bits n c = crc8_spec_shift^[n] c := by
  induction n generalizing c with
  | zero => rfl
  | succ n ih =>
    rw [crc8_bits, Function.iterate_succ_apply, ← crc8_bit_spec_table c hc]
    exact ih _ (crc8_bit_lt c)

theorem foldl_crc8_byte_eq_spec (l : List Nat) (c : Nat) (hc : c < 256)
    (hl : ∀ b ∈ l, b < 256) :
    l.foldl crc8_byte c =
      l.foldl (fun crc byte => crc8_spec_shift^[8] (crc ^^^ byte)) c := by
  induction l generalizing c with
  | nil => rfl
  | cons b t ih =>
    have hb : b < 256 := hl b (by simp)
    have hx : c ^^^ b < 256 := Nat.xor_lt_two_pow (n := 8) hc hb
    rw [List.foldl_cons, List.foldl_cons, ih _ (crc8_byte_lt c b) (fun x hx => hl x (by simp [hx]))]
    congr 1
    unfold crc8_byte
    rw [Nat.mod_eq_of_lt hx, crc8_bits_eq_iterate 8 _ hx]

/-- C1: `crc8_aht(data, len)` is the CRC-8 with generator `x^8+x^5+x^4+1`,
initial register `0xFF`, most significant bit first, no reflection and no final
XOR.  It equals the register recurrence as the specification words it, and the
polynomial of its bits is the remainder modulo the generator of the message
polynomial times `x^8` with `0xFF` XORed into the first byte; it is a byte, and
the checksum of the empty sequence is `0xFF`. -/
theorem crc8_aht_is_crc8 (data : List Nat) (len : Nat) (hlen : len ≤ data.length)
    (hbytes : ∀ b ∈ data, b < 256) :
    crc8_aht data len = crc8_spec (data.take len) ∧
    natPoly (crc8_aht data len) =
      natPoly ((msg_value (data.take len) <<< 8) ^^^ (0xFF <<< (8 * len))) %ₘ gen ∧
    (∀ r : Nat,
      natPoly r =
        natPoly ((msg_value (data.take len) <<< 8) ^^^ (0xFF <<< (8 * len))) %ₘ gen →
      r = crc8_aht data len) ∧
    crc8_aht data len < 256 ∧
    crc8_aht [] 0 = 0xFF := by
  have hl : ∀ b ∈ data.take len, b < 256 := fun b hb => hbytes b (List.mem_of_mem_take hb)
  have hlen2 : (data.take len).length = len := by simp [hlen]
  have hpoly : natPoly ((data.take len).foldl crc8_byte 0xFF) =
      natPoly ((msg_value (data.take len) <<< 8) ^^^ (0xFF <<< (8 * len))) %ₘ gen := by
    rw [natPoly_foldl_crc8_byte _ _ (by norm_num) hl, hlen2, natPoly_xor, Nat.shiftLeft_eq,
      Nat.shiftLeft_eq, Nat.mul_comm _ (2 ^ 8), Nat.mul_comm _ (2 ^ (8 * len)),
      natPoly_pow_mul, natPoly_pow_mul, add_comm]
  rw [crc8_aht_eq_foldl data len hlen]
  exact ⟨foldl_crc8_byte_eq_spec _ _ (by norm_num) hl, hpoly,
    fun r hr => natPoly_injective _ _ (hr.trans hpoly.symm),
    foldl_crc8_byte_lt _ _ (by norm_num), rfl⟩

set_option maxRecDepth 1000000 in
/-- Witness of `crc8_aht_is_crc8` on the six-byte prefix of the frame of scenario
A, whose checksum is `0x60`. -/
theorem crc8_aht_is_crc8_witness :
    (6 ≤ [0x00, 0x33, 0x33, 0x33, 0x33, 0x33, 0x60].length ∧
      ∀ b ∈ [0x00, 0x33, 0x33, 0x33, 0x33, 0x33, 0x60], b < 256) ∧
    crc8_aht [0x00, 0x33, 0x33, 0x33, 0x33, 0x33, 0x60] 6 = 0x60 ∧
    crc8_spec [0x00, 0x33, 0x33, 0x33, 0x33, 0x33] = 0x60 ∧
    natPoly 0x60 = natPoly ((0x3333333333 <<< 8) ^^^ (0xFF <<< 48)) %ₘ gen := by
  have h := crc8_aht_is_crc8 [0x00, 0x33, 0x33, 0x33, 0x33, 0x33, 0x60] 6 (by decide)
    (by decide)
  have hv : crc8_aht [0x00, 0x33, 0x33, 0x33, 0x33, 0x33, 0x60] 6 = 0x60 := by decide
  have hm : msg_value ([0x00, 0x33, 0x33, 0x33, 0x33, 0x33, 0x60].take 6) = 0x3333333333 := by
    decide
  rw [hv, hm] at h
  exact ⟨⟨by decide, by decide⟩, hv, h.1.symm, h.2.1⟩

/-! ## A complete read -/

theorem run_once_complete (bus : Bus) (dev : String) (addr : Int) (buf : List Nat)
    (h : BusDelivers bus buf) :
    run_once bus dev addr =
      (decode buf,
        full_trace bus.open_ret dev (if addr = 0 then AHT30_ADDR_DEFAULT else addr)) := by
  obtain ⟨h1, h2, h3, h4, h5⟩ := h
  simp [run_once, read_aht30_once, sys_open, sys_ioctl, sys_write, sys_usleep, sys_read,
    sys_close, bind, StateT.bind, StateT.run, pure, StateT.pure, not_lt.mpr h1, not_lt.mpr h2,
    h3, h4, h5, full_trace, MEASURE_CMD, READ_LEN, MEASURE_DELAY_US]

theorem and_0x80_ne_zero (x : Nat) : (x &&& 0x80 ≠ 0) ↔ x.testBit 7 = true := by
  have h := Nat.and_two_pow x 7
  norm_num at h
  rw [h]
  cases x.testBit 7 <;> simp

theorem decode_of_match (buf : List Nat) (h : crc8_aht buf 6 = buf.getD 6 0) :
    decode buf =
      { ok := true
        reading :=
          { temp_c := ((t_raw buf : ℚ) / 1048576) * 200 - 50
            temp_f := ((((t_raw buf : ℚ) / 1048576) * 200 - 50) * 9 / 5) + 32
            humidity := ((rh_raw buf : ℚ) / 1048576) * 100
            status := buf.getD 0 0
            busy := (buf.getD 0 0).testBit 7 }
        error := "" } := by
  have hb : decide (buf.getD 0 0 &&& 0x80 ≠ 0) = (buf.getD 0 0).testBit 7 := by
    rw [Bool.eq_iff_iff, decide_eq_true_iff]
    exact and_0x80_ne_zero _
  simp only [decode, h, ne_eq, not_true_eq_false, if_false]
  rw [← hb]

theorem decode_of_mismatch (buf : List Nat) (h : crc8_aht buf 6 ≠ buf.getD 6 0) :
    decode buf =
      { ok := false, reading := {},
        error := crc_mismatch_text (crc8_aht buf 6) (buf.getD 6 0) } := by
  unfold decode
  simp only []
  rw [if_pos h]

/-- C2: after a complete read the decoding succeeds exactly when `crc8_aht` over
bytes 0..5 equals byte 6.  With a matching checksum the result is `ok` with
`busy` equal to bit 7 of byte 0 (so a set busy bit gives `busy = true`, not a
failure); with a mismatch the result is the checksum failure and nothing else. -/
theorem decode_ok_iff_checksum (bus : Bus) (dev : String) (addr : Int) (buf : List Nat)
    (hbus : BusDelivers bus buf) :
    ((run_once bus dev addr).1.ok = true ↔ crc8_aht buf 6 = buf.getD 6 0) ∧
    (crc8_aht buf 6 = buf.getD 6 0 →
      (run_once bus dev addr).1.ok = true ∧ (run_once bus dev addr).1.error = "" ∧
      (run_once bus dev addr).1.reading.busy = (buf.getD 0 0).testBit 7) ∧
    (crc8_aht buf 6 ≠ buf.getD 6 0 →
      (run_once bus dev addr).1 =
        { ok := false, reading := {},
          error := crc_mismatch_text (crc8_aht buf 6) (buf.getD 6 0) }) := by
  rw [run_once_complete bus dev addr buf hbus]
  by_cases h : crc8_aht buf 6 = buf.getD 6 0
  · rw [decode_of_match buf h]
    exact ⟨⟨fun _ => h, fun _ => rfl⟩, fun _ => ⟨rfl, rfl, rfl⟩, fun h2 => absurd h h2⟩
  · rw [decode_of_mismatch buf h]
    exact ⟨⟨fun h2 => by simp at h2, fun h2 => absurd h2 h⟩, fun h2 => absurd h2 h,
      fun _ => rfl⟩

set_option maxRecDepth 1000000 in
/-- Witness of `decode_ok_iff_checksum`: the frame of scenario B, busy bit set and
checksum matching, decodes with `ok` and `busy = true`. -/
theorem decode_ok_iff_checksum_witness :
    BusDelivers (good_bus [0x80, 0x33, 0x33, 0x33, 0x33, 0x33, 0x8C])
      [0x80, 0x33, 0x33, 0x33, 0x33, 0x33, 0x8C] ∧
    (run_once (good_bus [0x80, 0x33, 0x33, 0x33, 0x33, 0x33, 0x8C]) "/dev/i2c-1" 0x38).1.ok
      = true ∧
    (run_once (good_bus [0x80, 0x33, 0x33, 0x33, 0x33, 0x33, 0x8C]) "/dev/i2c-1"
      0x38).1.reading.busy = true :=
  ⟨by decide,
   ((decode_ok_iff_checksum (good_bus [0x80, 0x33, 0x33, 0x33, 0x33, 0x33, 0x8C])
      "/dev/i2c-1" 0x38 [0x80, 0x33, 0x33, 0x33, 0x33, 0x33, 0x8C] (by decide)).2.1
      (by decide)).1,
   ((decode_ok_iff_checksum (good_bus [0x80, 0x33, 0x33, 0x33, 0x33, 0x33, 0x8C])
      "/dev/i2c-1" 0x38 [0x80, 0x33, 0x33, 0x33, 0x33, 0x33, 0x8C] (by decide)).2.1
      (by decide)).2.2⟩

/-! ## Field extraction -/

theorem lor_eq_add (i a b : Nat) (hb : b < 2 ^ i) : 2 ^ i * a ||| b = 2 ^ i * a + b :=
  (Nat.mul_add_lt_is_or hb a).symm

theorem land_0x0F (x : Nat) : x &&& 0x0F = x % 16 :=
  Nat.and_pow_two_sub_one_eq_mod x 4

theorem land_0xFF (x : Nat) : x &&& 0xFF = x % 256 :=
  Nat.and_pow_two_sub_one_eq_mod x 8

theorem frame_byte_lt (buf : List Nat) (hf : IsFrame buf) (i : Nat) : buf.getD i 0 < 256 := by
  by_cases hi : i < buf.length
  · rw [List.getD_eq_getElem _ _ hi]
    exact hf.2 _ (List.getElem_mem hi)
  · rw [List.getD_eq_default _ _ (by omega)]
    norm_num

theorem rh_raw_arith (buf : List Nat) (hf : IsFrame buf) :
    rh_raw buf = buf.getD 1 0 * 4096 + buf.getD 2 0 * 16 + buf.getD 3 0 / 16 := by
  have h1 := frame_byte_lt buf hf 1
  have h2 := frame_byte_lt buf hf 2
  have h3 := frame_byte_lt buf hf 3
  unfold rh_raw
  generalize buf.getD 1 0 = b1 at *
  generalize buf.getD 2 0 = b2 at *
  generalize buf.getD 3 0 = b3 at *
  have e1 : (b1 <<< 12) % 2 ^ 32 = 2 ^ 4 * (b1 * 256) := by
    rw [Nat.shiftLeft_eq, Nat.mod_eq_of_lt (by omega)]; omega
  have e2 : (b2 <<< 4) % 2 ^ 32 = 2 ^ 4 * b2 := by
    rw [Nat.shiftLeft_eq, Nat.mod_eq_of_lt (by omega)]; omega
  have e3 : (b3 >>> 4) &&& 0x0F = b3 / 16 := by
    rw [land_0x0F, Nat.shiftRight_eq_div_pow]; omega
  have e4 : 2 ^ 4 * (b1 * 256) ||| 2 ^ 4 * b2 = 2 ^ 4 * (b1 * 256 + b2) := by
    have h := lor_eq_add 12 b1 (2 ^ 4 * b2) (by omega)
    have h5 : 2 ^ 4 * (b1 * 256) = 2 ^ 12 * b1 := by omega
    rw [h5, h]; omega
  rw [e1, e2, e3, e4, lor_eq_add 4 _ _ (by omega), Nat.mod_eq_of_lt (by omega)]
  omega

theorem t_raw_arith (buf : List Nat) (hf : IsFrame buf) :
    t_raw buf = (buf.getD 3 0 % 16) * 65536 + buf.getD 4 0 * 256 + buf.getD 5 0 := by
  have h3 := frame_byte_lt buf hf 3
  have h4 := frame_byte_lt buf hf 4
  have h5 := frame_byte_lt buf hf 5
  unfold t_raw
  generalize buf.getD 3 0 = b3 at *
  generalize buf.getD 4 0 = b4 at *
  generalize buf.getD 5 0 = b5 at *
  have e1 : ((b3 &&& 0x0F) <<< 16) % 2 ^ 32 = 2 ^ 8 * ((b3 % 16) * 256) := by
    rw [land_0x0F, Nat.shiftLeft_eq, Nat.mod_eq_of_lt (by omega)]; omega
  have e2 : (b4 <<< 8) % 2 ^ 32 = 2 ^ 8 * b4 := by
    rw [Nat.shiftLeft_eq, Nat.mod_eq_of_lt (by omega)]; omega
  have e4 : 2 ^ 8 * ((b3 % 16) * 256) ||| 2 ^ 8 * b4 = 2 ^ 8 * ((b3 % 16) * 256 + b4) := by
    have h := lor_eq_add 16 (b3 % 16) (2 ^ 8 * b4) (by omega)
    have h6 : 2 ^ 8 * ((b3 % 16) * 256) = 2 ^ 16 * (b3 % 16) := by omega
    rw [h6, h]; omega
  rw [e1, e2, e4, lor_eq_add 8 _ _ (by omega), Nat.mod_eq_of_lt (by omega)]
  omega

theorem rh_raw_lt (buf : List Nat) (hf : IsFrame buf) : rh_raw buf < 2 ^ 20 := by
  have h1 := frame_byte_lt buf hf 1
  have h2 := frame_byte_lt buf hf 2
  have h3 := frame_byte_lt buf hf 3
  rw [rh_raw_arith buf hf]
  omega

theorem t_raw_lt (buf : List Nat) (hf : IsFrame buf) : t_raw buf < 2 ^ 20 := by
  have h4 := frame_byte_lt buf hf 4
  have h5 := frame_byte_lt buf hf 5
  rw [t_raw_arith buf hf]
  omega

theorem rh_raw_congr (buf buf2 : List Nat)
    (h : ∀ i, 1 ≤ i → i ≤ 5 → buf2.getD i 0 = buf.getD i 0) : rh_raw buf2 = rh_raw buf := by
  unfold rh_raw
  rw [h 1 (by norm_num) (by norm_num), h 2 (by norm_num) (by norm_num),
    h 3 (by norm_num) (by norm_num)]

theorem t_raw_congr (buf buf2 : List Nat)
    (h : ∀ i, 1 ≤ i → i ≤ 5 → buf2.getD i 0 = buf.getD i 0) : t_raw buf2 = t_raw buf := by
  unfold t_raw
  rw [h 3 (by norm_num) (by norm_num), h 4 (by norm_num) (by norm_num),
    h 5 (by norm_num) (by norm_num)]

/-- C3: for a frame `b` whose checksum validates, the reading has
`status = b[0]`, `busy` = bit 7 of `b[0]`,
`humidity = rh_raw / 2^20 * 100` with `rh_raw = b[1]*2^12 + b[2]*2^4 + (b[3] >> 4)`,
`temp_c = t_raw / 2^20 * 200 - 50` with `t_raw = (b[3] & 0x0F)*2^16 + b[4]*2^8 + b[5]`
and `temp_f = temp_c * 9/5 + 32` in exact rational arithmetic; both raw fields
are below `2^20`; and any other validating frame with the same bytes 1..5 gives
the same three values, whatever its byte 0. -/
theorem decode_fields (bus : Bus) (dev : String) (addr : Int) (buf : List Nat)
    (hbus : BusDelivers bus buf) (hf : IsFrame buf)
    (hcrc : crc8_aht buf 6 = buf.getD 6 0) :
    ∃ rd : Aht30Reading,
      (run_once bus dev addr).1 = { ok := true, reading := rd, error := "" } ∧
      rd.status = buf.getD 0 0 ∧
      rd.busy = (buf.getD 0 0).testBit 7 ∧
      rh_raw buf = buf.getD 1 0 * 2 ^ 12 + buf.getD 2 0 * 2 ^ 4 + (buf.getD 3 0 >>> 4) ∧
      t_raw buf = (buf.getD 3 0 &&& 0x0F) * 2 ^ 16 + buf.getD 4 0 * 2 ^ 8 + buf.getD 5 0 ∧
      rd.humidity = (rh_raw buf : ℚ) / 2 ^ 20 * 100 ∧
      rd.temp_c = (t_raw buf : ℚ) / 2 ^ 20 * 200 - 50 ∧
      rd.temp_f = rd.temp_c * 9 / 5 + 32 ∧
      rh_raw buf < 2 ^ 20 ∧ t_raw buf < 2 ^ 20 ∧
      ∀ (bus2 : Bus) (dev2 : String) (addr2 : Int) (buf2 : List Nat),
        BusDelivers bus2 buf2 → crc8_aht buf2 6 = buf2.getD 6 0 →
        (∀ i, 1 ≤ i → i ≤ 5 → buf2.getD i 0 = buf.getD i 0) →
        (run_once bus2 dev2 addr2).1.ok = true ∧
        (run_once bus2 dev2 addr2).1.reading.humidity = rd.humidity ∧
        (run_once bus2 dev2 addr2).1.reading.temp_c = rd.temp_c ∧
        (run_once bus2 dev2 addr2).1.reading.temp_f = rd.temp_f := by
  refine ⟨_, by rw [run_once_complete bus dev addr buf hbus, decode_of_match buf hcrc],
    rfl, rfl, ?_, ?_, ?_, ?_, rfl, rh_raw_lt buf hf, t_raw_lt buf hf, ?_⟩
  · rw [rh_raw_arith buf hf, Nat.shiftRight_eq_div_pow]
    norm_num
  · rw [t_raw_arith buf hf, land_0x0F]
    norm_num
  · norm_num
  · norm_num
  · intro bus2 dev2 addr2 buf2 hbus2 hcrc2 hsame
    rw [run_once_complete bus2 dev2 addr2 buf2 hbus2, decode_of_match buf2 hcrc2]
    simp only [rh_raw_congr buf buf2 hsame, t_raw_congr buf buf2 hsame, and_self]

set_option maxRecDepth 1000000 in
/-- Witness of `decode_fields`: the frame of scenario A gives `busy = false` and
`rh_raw = t_raw = 0x33333`. -/
theorem decode_fields_witness :
    BusDelivers (good_bus [0x00, 0x33, 0x33, 0x33, 0x33, 0x33, 0x60])
      [0x00, 0x33, 0x33, 0x33, 0x33, 0x33, 0x60] ∧
    IsFrame [0x00, 0x33, 0x33, 0x33, 0x33, 0x33, 0x60] ∧
    crc8_aht [0x00, 0x33, 0x33, 0x33, 0x33, 0x33, 0x60] 6 = 0x60 ∧
    rh_raw [0x00, 0x33, 0x33, 0x33, 0x33, 0x33, 0x60] = 0x33333 ∧
    t_raw [0x00, 0x33, 0x33, 0x33, 0x33, 0x33, 0x60] = 0x33333 ∧
    ∃ rd : Aht30Reading,
      (run_once (good_bus [0x00, 0x33, 0x33, 0x33, 0x33, 0x33, 0x60]) "/dev/i2c-1" 0x38).1 =
        { ok := true, reading := rd, error := "" } ∧
      rd.status = 0 ∧ rd.busy = false ∧
      rd.humidity = (0x33333 : ℚ) / 2 ^ 20 * 100 ∧
      rd.temp_c = (0x33333 : ℚ) / 2 ^ 20 * 200 - 50 := by
  refine ⟨by decide, by decide, by decide, by decide, by decide, ?_⟩
  obtain ⟨rd, h1, h2, h3, _, _, h6, h7, _⟩ :=
    decode_fields (good_bus [0x00, 0x33, 0x33, 0x33, 0x33, 0x33, 0x60]) "/dev/i2c-1" 0x38
      [0x00, 0x33, 0x33, 0x33, 0x33, 0x33, 0x60] (by decide) (by decide) (by decide)
  have hr : rh_raw [0x00, 0x33, 0x33, 0x33, 0x33, 0x33, 0x60] = 0x33333 := by decide
  have ht : t_raw [0x00, 0x33, 0x33, 0x33, 0x33, 0x33, 0x60] = 0x33333 := by decide
  rw [hr] at h6
  rw [ht] at h7
  exact ⟨rd, h1, h2, h3, by simpa using h6, by simpa using h7⟩

/-! ## Round trip -/

theorem encode_frame_isFrame (s h t : Nat) (hs : s < 256) (hh : h < 2 ^ 20) (ht : t < 2 ^ 20) :
    IsFrame (encode_frame s h t) := by
  have e1 : h >>> 12 < 256 := by rw [Nat.shiftRight_eq_div_pow]; omega
  have e2 : (h >>> 4) &&& 0xFF < 256 := by rw [land_0xFF]; omega
  have e3 : ((h &&& 0xF) <<< 4) ||| (t >>> 16) < 256 := by
    apply Nat.or_lt_two_pow (n := 8)
    · rw [land_0x0F, Nat.shiftLeft_eq]; omega
    · rw [Nat.shiftRight_eq_div_pow]; omega
  have e4 : (t >>> 8) &&& 0xFF < 256 := by rw [land_0xFF]; omega
  have e5 : t &&& 0xFF < 256 := by rw [land_0xFF]; omega
  refine ⟨rfl, ?_⟩
  intro b hb
  simp only [encode_frame, List.mem_cons, List.mem_singleton, List.not_mem_nil, or_false] at hb
  rcases hb with rfl | rfl | rfl | rfl | rfl | rfl | rfl
  · exact hs
  · exact e1
  · exact e2
  · exact e3
  · exact e4
  · exact e5
  · rw [crc8_aht_eq_foldl _ _ (by simp)]
    exact foldl_crc8_byte_lt _ _ (by norm_num)

theorem crc8_loop_congr (d1 d2 : List Nat) (n i c : Nat)
    (h : ∀ j, i ≤ j → j < i + n → d1.getD j 0 = d2.getD j 0) :
    crc8_loop d1 n i c = crc8_loop d2 n i c := by
  induction n generalizing i c with
  | zero => rfl
  | succ n ih =>
    rw [crc8_loop, crc8_loop, h i (le_refl i) (by omega)]
    exact ih (i + 1) _ (fun j h1 h2 => h j (by omega) (by omega))

theorem encode_frame_crc (s h t : Nat) :
    crc8_aht (encode_frame s h t) 6 = (encode_frame s h t).getD 6 0 := by
  have h6 : (encode_frame s h t).getD 6 0 =
      crc8_aht [s, h >>> 12, (h >>> 4) &&& 0xFF, ((h &&& 0xF) <<< 4) ||| (t >>> 16),
        (t >>> 8) &&& 0xFF, t &&& 0xFF] 6 := rfl
  rw [h6]
  unfold crc8_aht
  apply crc8_loop_congr
  intro j _ hj
  have hj6 : j < 6 := by omega
  interval_cases j <;> rfl

theorem encode_frame_rh_raw (s h t : Nat) (hs : s < 256) (hh : h < 2 ^ 20) (ht : t < 2 ^ 20) :
    rh_raw (encode_frame s h t) = h := by
  rw [rh_raw_arith _ (encode_frame_isFrame s h t hs hh ht)]
  have e3 : ((h &&& 0xF) <<< 4) ||| (t >>> 16) = 2 ^ 4 * (h % 16) + t / 65536 := by
    rw [land_0x0F, Nat.shiftLeft_eq, Nat.shiftRight_eq_div_pow, Nat.mul_comm,
      lor_eq_add 4 _ _ (by omega)]
  show (h >>> 12) * 4096 + ((h >>> 4) &&& 0xFF) * 16
      + (((h &&& 0xF) <<< 4) ||| (t >>> 16)) / 16 = h
  rw [e3, land_0xFF, Nat.shiftRight_eq_div_pow, Nat.shiftRight_eq_div_pow]
  omega

theorem encode_frame_t_raw (s h t : Nat) (hs : s < 256) (hh : h < 2 ^ 20) (ht : t < 2 ^ 20) :
    t_raw (encode_frame s h t) = t := by
  rw [t_raw_arith _ (encode_frame_isFrame s h t hs hh ht)]
  have e3 : ((h &&& 0xF) <<< 4) ||| (t >>> 16) = 2 ^ 4 * (h % 16) + t / 65536 := by
    rw [land_0x0F, Nat.shiftLeft_eq, Nat.shiftRight_eq_div_pow, Nat.mul_comm,
      lor_eq_add 4 _ _ (by omega)]
  show ((((h &&& 0xF) <<< 4) ||| (t >>> 16)) % 16) * 65536 + ((t >>> 8) &&& 0xFF) * 256
      + (t &&& 0xFF) = t
  rw [e3, land_0xFF, land_0xFF, Nat.shiftRight_eq_div_pow]
  omega

/-- C4: round trip.  For a status byte `s` and raw values `h, t < 2^20`, the
frame built from them with the checksum of its six bytes decodes successfully,
the extracted raw fields are `h` and `t`, `humidity = h/2^20*100`,
`temp_c = t/2^20*200 - 50` and `status = s`; `h = 0` gives humidity `0` and
`t = 0` gives `temp_c = -50`. -/
theorem encode_decode_roundtrip (s h t : Nat) (hs : s < 256) (hh : h < 2 ^ 20)
    (ht : t < 2 ^ 20) (bus : Bus) (dev : String) (addr : Int)
    (hbus : BusDelivers bus (encode_frame s h t)) :
    ∃ rd : Aht30Reading,
      (run_once bus dev addr).1 = { ok := true, reading := rd, error := "" } ∧
      rh_raw (encode_frame s h t) = h ∧
      t_raw (encode_frame s h t) = t ∧
      rd.humidity = (h : ℚ) / 2 ^ 20 * 100 ∧
      rd.temp_c = (t : ℚ) / 2 ^ 20 * 200 - 50 ∧
      rd.status = s ∧
      (h = 0 → rd.humidity = 0) ∧
      (t = 0 → rd.temp_c = -50) := by
  have hr := encode_frame_rh_raw s h t hs hh ht
  have htr := encode_frame_t_raw s h t hs hh ht
  refine ⟨_, by rw [run_once_complete bus dev addr _ hbus,
    decode_of_match _ (encode_frame_crc s h t)], hr, htr, ?_, ?_, rfl, ?_, ?_⟩
  · simp only [hr]; norm_num
  · simp only [htr]; norm_num
  · intro h0; simp only [hr]; rw [h0]; norm_num
  · intro t0; simp only [htr]; rw [t0]; norm_num

set_option maxRecDepth 1000000 in
/-- Witness of `encode_decode_roundtrip` at `s = 0x18`, `h = 0x80000`,
`t = 0x60000`: humidity 50 and 25 degrees Celsius. -/
theorem encode_decode_roundtrip_witness :
    (0x18 < 256 ∧ 0x80000 < 2 ^ 20 ∧ 0x60000 < 2 ^ 20) ∧
    BusDelivers (good_bus (encode_frame 0x18 0x80000 0x60000))
      (encode_frame 0x18 0x80000 0x60000) ∧
    ∃ rd : Aht30Reading,
      (run_once (good_bus (encode_frame 0x18 0x80000 0x60000)) "/dev/i2c-1" 0x38).1 =
        { ok := true, reading := rd, error := "" } ∧
      rd.humidity = 50 ∧ rd.temp_c = 25 ∧ rd.status = 0x18 := by
  refine ⟨by decide, ⟨by decide, by decide, by decide, by decide, rfl⟩, ?_⟩
  obtain ⟨rd, h1, _, _, h4, h5, h6, _⟩ :=
    encode_decode_roundtrip 0x18 0x80000 0x60000 (by decide) (by decide) (by decide)
      (good_bus (encode_frame 0x18 0x80000 0x60000)) "/dev/i2c-1" 0x38
      ⟨by decide, by decide, by decide, by decide, rfl⟩
  exact ⟨rd, h1, by rw [h4]; norm_num, by rw [h5]; norm_num, h6⟩

/-! ## Humidity range -/

theorem humidity_bounds (buf : List Nat) (hf : IsFrame buf) :
    0 ≤ ((rh_raw buf : ℚ) / 1048576) * 100 ∧ ((rh_raw buf : ℚ) / 1048576) * 100 < 100 := by
  have h : (rh_raw buf : ℚ) < 1048576 := by
    have := rh_raw_lt buf hf
    exact_mod_cast this
  have h0 : (0 : ℚ) ≤ (rh_raw buf : ℚ) := Nat.cast_nonneg _
  constructor
  · positivity
  · rw [div_mul_eq_mul_div, div_lt_iff₀ (by norm_num)]
    linarith

theorem decode_humidity (buf : List Nat) (h : crc8_aht buf 6 = buf.getD 6 0) :
    (decode buf).reading.humidity = ((rh_raw buf : ℚ) / 1048576) * 100 := by
  rw [decode_of_match buf h]

theorem conversions_dyadic (buf : List Nat) (hf : IsFrame buf) :
    ((rh_raw buf : ℚ) / 1048576) * 100 = ((rh_raw buf * 100 : Nat) : ℚ) / 2 ^ 20 ∧
    rh_raw buf * 100 < 2 ^ 53 ∧
    ((t_raw buf : ℚ) / 1048576) * 200 - 50 =
      (((t_raw buf : Int) * 200 - 52428800 : Int) : ℚ) / 2 ^ 20 ∧
    ((t_raw buf : Int) * 200 - 52428800).natAbs < 2 ^ 53 := by
  have h1 := rh_raw_lt buf hf
  have h2 := t_raw_lt buf hf
  refine ⟨?_, by omega, ?_, by omega⟩
  · push_cast
    ring
  · push_cast
    ring

/-- C8 as stated fails: no frame whose checksum validates decodes to a humidity
outside `[0, 100]`. -/
theorem no_valid_frame_humidity_out_of_range :
    ¬ ∃ (bus : Bus) (dev : String) (addr : Int) (buf : List Nat),
      BusDelivers bus buf ∧ IsFrame buf ∧ crc8_aht buf 6 = buf.getD 6 0 ∧
      ((run_once bus dev addr).1.reading.humidity < 0 ∨
        100 < (run_once bus dev addr).1.reading.humidity) := by
  rintro ⟨bus, dev, addr, buf, hbus, hf, hcrc, hout⟩
  rw [run_once_complete bus dev addr buf hbus, decode_humidity buf hcrc] at hout
  have hb := humidity_bounds buf hf
  rcases hout with h | h
  · exact absurd hb.1 (not_le.mpr h)
  · exact absurd hb.2 (not_lt.mpr (le_of_lt h))

/-- C8, amended: for every frame whose checksum validates, the decoded humidity
lies in `[0, 100)`, because `rh_raw` is a 20-bit field. -/
theorem valid_frame_humidity_in_range (bus : Bus) (dev : String) (addr : Int)
    (buf : List Nat) (hbus : BusDelivers bus buf) (hf : IsFrame buf)
    (hcrc : crc8_aht buf 6 = buf.getD 6 0) :
    (run_once bus dev addr).1.ok = true ∧
    0 ≤ (run_once bus dev addr).1.reading.humidity ∧
    (run_once bus dev addr).1.reading.humidity < 100 := by
  rw [run_once_complete bus dev addr buf hbus]
  refine ⟨by rw [decode_of_match buf hcrc], ?_⟩
  rw [decode_humidity buf hcrc]
  exact humidity_bounds buf hf

set_option maxRecDepth 1000000 in
/-- Witness of `valid_frame_humidity_in_range`: the frame with the largest raw
humidity, `rh_raw = 0xFFFFF`. -/
theorem valid_frame_humidity_in_range_witness :
    BusDelivers (good_bus [0x00, 0xFF, 0xFF, 0xF0, 0x00, 0x00, 0xD4])
      [0x00, 0xFF, 0xFF, 0xF0, 0x00, 0x00, 0xD4] ∧
    IsFrame [0x00, 0xFF, 0xFF, 0xF0, 0x00, 0x00, 0xD4] ∧
    crc8_aht [0x00, 0xFF, 0xFF, 0xF0, 0x00, 0x00, 0xD4] 6 = 0xD4 ∧
    rh_raw [0x00, 0xFF, 0xFF, 0xF0, 0x00, 0x00, 0xD4] = 0xFFFFF ∧
    (run_once (good_bus [0x00, 0xFF, 0xFF, 0xF0, 0x00, 0x00, 0xD4]) "/dev/i2c-1"
      0x38).1.reading.humidity < 100 :=
  ⟨by decide, by decide, by decide, by decide,
   (valid_frame_humidity_in_range (good_bus [0x00, 0xFF, 0xFF, 0xF0, 0x00, 0x00, 0xD4])
      "/dev/i2c-1" 0x38 [0x00, 0xFF, 0xFF, 0xF0, 0x00, 0x00, 0xD4]
      (by decide) (by decide) (by decide)).2.2⟩

/-! ## The text of the checksum failure -/

set_option maxRecDepth 1000000 in
/-- C10 at the all-zero frame: the computed checksum is 106 and the received
byte is 0; the error text prints the decimal numeral `106` after `0x`, which
read as hexadecimal is 262. -/
theorem crc_mismatch_text_prints_decimal :
    BusDelivers (good_bus [0, 0, 0, 0, 0, 0, 0]) [0, 0, 0, 0, 0, 0, 0] ∧
    crc8_aht [0, 0, 0, 0, 0, 0, 0] 6 = 106 ∧
    (run_once (good_bus [0, 0, 0, 0, 0, 0, 0]) "/dev/i2c-1" 0x38).1 =
      { ok := false, reading := {},
        error := "CRC mismatch: calculated 0x" ++ "106" ++ " but received 0x" ++ "0" } ∧
    hex_value "106" = some 262 ∧ hex_value "0" = some 0 := by
  refine ⟨by decide, by decide, ?_, by decide, by decide⟩
  have hb : BusDelivers (good_bus [0, 0, 0, 0, 0, 0, 0]) [0, 0, 0, 0, 0, 0, 0] := by decide
  have hc : crc8_aht [0, 0, 0, 0, 0, 0, 0] 6 ≠ [0, 0, 0, 0, 0, 0, 0].getD 6 0 := by decide
  have hv : crc8_aht [0, 0, 0, 0, 0, 0, 0] 6 = 106 := by decide
  rw [run_once_complete _ _ _ _ hb, decode_of_mismatch _ hc, hv]
  decide

/-! ## Single-bit errors -/

theorem crc8_bit_inj (a b : Nat) (ha : a < 256) (hb : b < 256)
    (h : crc8_bit a = crc8_bit b) : a = b := by
  rw [← crc8_unbit_bit a ha, ← crc8_unbit_bit b hb, h]

theorem crc8_bits_inj (n a b : Nat) (ha : a < 256) (hb : b < 256)
    (h : crc8_bits n a = crc8_bits n b) : a = b := by
  induction n generalizing a b with
  | zero => simpa [crc8_bits] using h
  | succ n ih =>
    rw [crc8_bits, crc8_bits] at h
    exact crc8_bit_inj a b ha hb (ih _ _ (crc8_bit_lt a) (crc8_bit_lt b) h)

theorem crc8_byte_inj_left (c1 c2 b : Nat) (h1 : c1 < 256) (h2 : c2 < 256) (hb : b < 256)
    (h : crc8_byte c1 b = crc8_byte c2 b) : c1 = c2 := by
  have x1 : c1 ^^^ b < 256 := Nat.xor_lt_two_pow (n := 8) h1 hb
  have x2 : c2 ^^^ b < 256 := Nat.xor_lt_two_pow (n := 8) h2 hb
  unfold crc8_byte at h
  rw [Nat.mod_eq_of_lt x1, Nat.mod_eq_of_lt x2] at h
  exact Nat.xor_left_inj.mp (crc8_bits_inj 8 _ _ x1 x2 h)

theorem crc8_byte_inj_right (c b1 b2 : Nat) (hc : c < 256) (h1 : b1 < 256) (h2 : b2 < 256)
    (h : crc8_byte c b1 = crc8_byte c b2) : b1 = b2 := by
  have x1 : c ^^^ b1 < 256 := Nat.xor_lt_two_pow (n := 8) hc h1
  have x2 : c ^^^ b2 < 256 := Nat.xor_lt_two_pow (n := 8) hc h2
  unfold crc8_byte at h
  rw [Nat.mod_eq_of_lt x1, Nat.mod_eq_of_lt x2] at h
  exact Nat.xor_right_inj.mp (crc8_bits_inj 8 _ _ x1 x2 h)

theorem crc8_loop_succ (d : List Nat) (n i c : Nat) :
    crc8_loop d (n + 1) i c = crc8_loop d n (i + 1) (crc8_byte c (d.getD i 0)) := rfl

theorem crc8_loop_lt (d : List Nat) (n i c : Nat) (hc : c < 256) : crc8_loop d n i c < 256 := by
  induction n generalizing i c with
  | zero => simpa [crc8_loop] using hc
  | succ n ih => rw [crc8_loop_succ]; exact ih _ _ (crc8_byte_lt _ _)

theorem crc8_loop_split (d : List Nat) (n m i c : Nat) :
    crc8_loop d (n + m) i c = crc8_loop d m (i + n) (crc8_loop d n i c) := by
  induction n generalizing i c with
  | zero => simp [crc8_loop]
  | succ n ih =>
    rw [show n + 1 + m = (n + m) + 1 by omega, crc8_loop_succ, crc8_loop_succ, ih]
    rw [show i + 1 + n = i + (n + 1) by omega]

theorem crc8_loop_inj (d : List Nat) (hd : ∀ i, d.getD i 0 < 256) (n i c1 c2 : Nat)
    (h1 : c1 < 256) (h2 : c2 < 256) (h : crc8_loop d n i c1 = crc8_loop d n i c2) :
    c1 = c2 := by
  induction n generalizing i c1 c2 with
  | zero => simpa [crc8_loop] using h
  | succ n ih =>
    rw [crc8_loop_succ, crc8_loop_succ] at h
    exact crc8_byte_inj_left c1 c2 _ h1 h2 (hd i)
      (ih _ _ _ (crc8_byte_lt _ _) (crc8_byte_lt _ _) h)

theorem flip_bit_getD_ne (buf : List Nat) (k i : Nat) (h : i ≠ k / 8) :
    (flip_bit buf k).getD i 0 = buf.getD i 0 := by
  unfold flip_bit
  rw [List.getD_eq_getElem?_getD, List.getElem?_set, if_neg (Ne.symm h),
    ← List.getD_eq_getElem?_getD]

theorem flip_bit_getD_eq (buf : List Nat) (k : Nat) (h : k / 8 < buf.length) :
    (flip_bit buf k).getD (k / 8) 0 = buf.getD (k / 8) 0 ^^^ (1 <<< (k % 8)) := by
  unfold flip_bit
  rw [List.getD_eq_getElem?_getD, List.getElem?_set, if_pos rfl, if_pos h]
  rfl

theorem one_shiftLeft_bounds (k : Nat) : 1 <<< (k % 8) ≠ 0 ∧ 1 <<< (k % 8) < 256 := by
  have hk : k % 8 < 8 := Nat.mod_lt _ (by norm_num)
  generalize k % 8 = m at hk
  interval_cases m <;> decide

theorem crc8_aht_flip_bit_ne (buf : List Nat) (hf : IsFrame buf) (k : Nat) (hk : k < 48) :
    crc8_aht (flip_bit buf k) 6 ≠ crc8_aht buf 6 := by
  have hj : k / 8 < 6 := by omega
  have hlen : k / 8 < buf.length := by rw [hf.1]; omega
  obtain ⟨he0, he⟩ := one_shiftLeft_bounds k
  have hb := frame_byte_lt buf hf (k / 8)
  have hd := frame_byte_lt buf hf
  have h6 : 6 = k / 8 + (1 + (5 - k / 8)) := by omega
  have hpre : crc8_loop (flip_bit buf k) (k / 8) 0 0xFF = crc8_loop buf (k / 8) 0 0xFF :=
    crc8_loop_congr _ _ _ _ _ (fun j _ h2 => flip_bit_getD_ne buf k j (by omega))
  have hpost : ∀ c, crc8_loop (flip_bit buf k) (5 - k / 8) (0 + k / 8 + 1) c =
      crc8_loop buf (5 - k / 8) (0 + k / 8 + 1) c :=
    fun c => crc8_loop_congr _ _ _ _ _ (fun j h1 _ => flip_bit_getD_ne buf k j (by omega))
  have hr : crc8_loop buf (k / 8) 0 0xFF < 256 := crc8_loop_lt _ _ _ _ (by norm_num)
  intro h
  unfold crc8_aht at h
  rw [h6, crc8_loop_split, crc8_loop_split, crc8_loop_split buf, crc8_loop_split buf,
    hpre, hpost] at h
  have h2 := crc8_loop_inj buf hd _ _ _ _ (crc8_loop_lt _ _ _ _ hr) (crc8_loop_lt _ _ _ _ hr) h
  rw [show (1 : Nat) = 0 + 1 from rfl, crc8_loop_succ, crc8_loop_succ] at h2
  simp only [crc8_loop, Nat.zero_add] at h2
  rw [flip_bit_getD_eq buf k hlen] at h2
  have h3 := crc8_byte_inj_right _ _ _ hr (Nat.xor_lt_two_pow (n := 8) hb he) hb h2
  have h4 : buf.getD (k / 8) 0 ^^^ (1 <<< (k % 8)) = buf.getD (k / 8) 0 ^^^ 0 := by
    rw [h3, Nat.xor_zero]
  exact he0 (Nat.xor_right_inj.mp h4)

/-- C5: for a frame whose byte 6 equals `crc8_aht` of bytes 0..5 and any of the
48 bit positions of bytes 0..5, the frame with that single bit flipped and byte
6 unchanged is rejected with the checksum failure: its computed checksum differs
from byte 6. -/
theorem single_bit_error_rejected (bus : Bus) (dev : String) (addr : Int) (buf : List Nat)
    (k : Nat) (hf : IsFrame buf) (hcrc : crc8_aht buf 6 = buf.getD 6 0) (hk : k < 48)
    (hbus : BusDelivers bus (flip_bit buf k)) :
    (flip_bit buf k).getD 6 0 = buf.getD 6 0 ∧
    crc8_aht (flip_bit buf k) 6 ≠ buf.getD 6 0 ∧
    (run_once bus dev addr).1 =
      { ok := false, reading := {},
        error := crc_mismatch_text (crc8_aht (flip_bit buf k) 6) (buf.getD 6 0) } := by
  have h6 : (flip_bit buf k).getD 6 0 = buf.getD 6 0 :=
    flip_bit_getD_ne buf k 6 (by omega)
  have hne : crc8_aht (flip_bit buf k) 6 ≠ buf.getD 6 0 := by
    rw [← hcrc]
    exact crc8_aht_flip_bit_ne buf hf k hk
  refine ⟨h6, hne, ?_⟩
  rw [run_once_complete bus dev addr _ hbus, decode_of_mismatch _ (by rw [h6]; exact hne), h6]

set_option maxRecDepth 1000000 in
/-- Witness of `single_bit_error_rejected`: bit 3 of byte 2 of the frame of
scenario A. -/
theorem single_bit_error_rejected_witness :
    IsFrame [0x00, 0x33, 0x33, 0x33, 0x33, 0x33, 0x60] ∧
    crc8_aht [0x00, 0x33, 0x33, 0x33, 0x33, 0x33, 0x60] 6 = 0x60 ∧
    flip_bit [0x00, 0x33, 0x33, 0x33, 0x33, 0x33, 0x60] 19 =
      [0x00, 0x33, 0x3B, 0x33, 0x33, 0x33, 0x60] ∧
    (run_once (good_bus (flip_bit [0x00, 0x33, 0x33, 0x33, 0x33, 0x33, 0x60] 19))
      "/dev/i2c-1" 0x38).1.ok = false := by
  refine ⟨by decide, by decide, by decide, ?_⟩
  rw [(single_bit_error_rejected
    (good_bus (flip_bit [0x00, 0x33, 0x33, 0x33, 0x33, 0x33, 0x60] 19)) "/dev/i2c-1" 0x38
    [0x00, 0x33, 0x33, 0x33, 0x33, 0x33, 0x60] 19 (by decide) (by decide) (by decide)
    ⟨by decide, by decide, by decide, by decide, rfl⟩).2.2]

/-! ## The bus sequence -/

theorem run_once_eq (bus : Bus) (dev : String) (addr : Int) :
    run_once bus dev addr =
      if bus.open_ret < 0 then
        ({ ok := false, reading := {}, error := open_failed_text dev bus.open_errno },
          [BusOp.opOpen dev])
      else if bus.ioctl_ret < 0 then
        ({ ok := false, reading := {},
           error := select_failed_text (if addr = 0 then AHT30_ADDR_DEFAULT else addr)
             bus.ioctl_errno },
          [BusOp.opOpen dev,
           BusOp.opIoctl bus.open_ret (if addr = 0 then AHT30_ADDR_DEFAULT else addr),
           BusOp.opClose bus.open_ret])
      else if bus.write_ret ≠ 3 then
        ({ ok := false, reading := {}, error := write_failed_text bus.write_errno },
          [BusOp.opOpen dev,
           BusOp.opIoctl bus.open_ret (if addr = 0 then AHT30_ADDR_DEFAULT else addr),
           BusOp.opWrite bus.open_ret [0xAC, 0x33, 0x00],
           BusOp.opClose bus.open_ret])
      else if bus.read_ret ≠ 7 then
        ({ ok := false, reading := {}, error := read_failed_text bus.read_errno },
          [BusOp.opOpen dev,
           BusOp.opIoctl bus.open_ret (if addr = 0 then AHT30_ADDR_DEFAULT else addr),
           BusOp.opWrite bus.open_ret [0xAC, 0x33, 0x00],
           BusOp.opUsleep 80000,
           BusOp.opRead bus.open_ret 7,
           BusOp.opClose bus.open_ret])
      else
        (decode bus.read_buf,
          full_trace bus.open_ret dev (if addr = 0 then AHT30_ADDR_DEFAULT else addr)) := by
  by_cases h1 : bus.open_ret < 0
  · simp [run_once, read_aht30_once, sys_open, bind, StateT.bind, StateT.run, pure,
      StateT.pure, h1]
  · by_cases h2 : bus.ioctl_ret < 0
    · simp [run_once, read_aht30_once, sys_open, sys_ioctl, sys_close, bind, StateT.bind,
        StateT.run, pure, StateT.pure, h1, h2]
    · by_cases h3 : bus.write_ret = 3
      · by_cases h4 : bus.read_ret = 7
        · simp [run_once, read_aht30_once, sys_open, sys_ioctl, sys_write, sys_usleep,
            sys_read, sys_close, bind, StateT.bind, StateT.run, pure, StateT.pure, h1, h2, h3,
            h4, full_trace, MEASURE_CMD, READ_LEN, MEASURE_DELAY_US]
        · simp [run_once, read_aht30_once, sys_open, sys_ioctl, sys_write, sys_usleep,
            sys_read, sys_close, bind, StateT.bind, StateT.run, pure, StateT.pure, h1, h2, h3,
            h4, MEASURE_CMD, READ_LEN, MEASURE_DELAY_US]
      · simp [run_once, read_aht30_once, sys_open, sys_ioctl, sys_write, sys_close, bind,
          StateT.bind, StateT.run, pure, StateT.pure, h1, h2, h3, MEASURE_CMD]

theorem append_ne_of_take (p q x y : String) (n : Nat) (hp : n ≤ p.data.length)
    (hq : n ≤ q.data.length) (h : p.data.take n ≠ q.data.take n) : p ++ x ≠ q ++ y := by
  intro heq
  apply h
  have h2 := congrArg (fun s : String => s.data.take n) heq
  simp only [String.data_append] at h2
  rwa [List.take_append_of_le_length hp, List.take_append_of_le_length hq] at h2

theorem open_failed_text_eq (d e : String) :
    open_failed_text d e = "Failed to open I2C device " ++ (d ++ (": " ++ e)) := by
  simp [open_failed_text, String.append_assoc]

theorem select_failed_text_eq (a : Int) (e : String) :
    select_failed_text a e = "Failed to select I2C slave 0x" ++ (to_string a ++ (": " ++ e)) := by
  simp [select_failed_text, String.append_assoc]

theorem crc_mismatch_text_eq (c r : Nat) :
    crc_mismatch_text c r =
      "CRC mismatch: calculated 0x" ++
        (to_string (c : Int) ++ (" but received 0x" ++ to_string (r : Int))) := by
  simp [crc_mismatch_text, String.append_assoc]

set_option maxRecDepth 100000 in
theorem failure_texts_distinct (d e1 e2 e3 e4 : String) (a : Int) (c r : Nat) :
    List.Pairwise (fun s1 s2 : String => s1 ≠ s2)
      [open_failed_text d e1, select_failed_text a e2, write_failed_text e3,
       read_failed_text e4, crc_mismatch_text c r] := by
  rw [open_failed_text_eq, select_failed_text_eq, crc_mismatch_text_eq]
  unfold write_failed_text read_failed_text
  simp only [List.pairwise_cons, List.mem_cons, List.mem_singleton, List.not_mem_nil,
    forall_eq_or_imp, forall_eq, List.Pairwise.nil, and_true, false_implies, implies_true]
  refine ⟨⟨?_, ?_, ?_, ?_⟩, ⟨?_, ?_, ?_⟩, ⟨?_, ?_⟩, ?_⟩ <;>
    exact append_ne_of_take _ _ _ _ 11 (by decide) (by decide) (by decide)

/-- C6: for every combination of outcomes of `open`, address selection, `write`
and `read`, the call performs open, select, write of `0xAC 0x33 0x00`, an 80 ms
wait and a read of 7 bytes in that order, each at most once, and stops at the
first failing step: after a failed step no later bus step appears in the trace
(only the `close` of an opened handle).  A failed open, a failed selection, a
write not returning 3 and a read not returning 7 give `ok = false` with an
untouched reading and four error texts that differ from each other and from the
checksum failure; a short read never reaches the decoding. -/
theorem bus_steps_in_order (bus : Bus) (dev : String) (addr : Int) :
    (bus.open_ret < 0 →
      run_once bus dev addr =
        ({ ok := false, reading := {}, error := open_failed_text dev bus.open_errno },
          [BusOp.opOpen dev])) ∧
    (0 ≤ bus.open_ret → bus.ioctl_ret < 0 →
      run_once bus dev addr =
        ({ ok := false, reading := {},
           error := select_failed_text (if addr = 0 then AHT30_ADDR_DEFAULT else addr)
             bus.ioctl_errno },
          [BusOp.opOpen dev,
           BusOp.opIoctl bus.open_ret (if addr = 0 then AHT30_ADDR_DEFAULT else addr),
           BusOp.opClose bus.open_ret])) ∧
    (0 ≤ bus.open_ret → 0 ≤ bus.ioctl_ret → bus.write_ret ≠ 3 →
      run_once bus dev addr =
        ({ ok := false, reading := {}, error := write_failed_text bus.write_errno },
          [BusOp.opOpen dev,
           BusOp.opIoctl bus.open_ret (if addr = 0 then AHT30_ADDR_DEFAULT else addr),
           BusOp.opWrite bus.open_ret [0xAC, 0x33, 0x00],
           BusOp.opClose bus.open_ret])) ∧
    (0 ≤ bus.open_ret → 0 ≤ bus.ioctl_ret → bus.write_ret = 3 → bus.read_ret ≠ 7 →
      run_once bus dev addr =
        ({ ok := false, reading := {}, error := read_failed_text bus.read_errno },
          [BusOp.opOpen dev,
           BusOp.opIoctl bus.open_ret (if addr = 0 then AHT30_ADDR_DEFAULT else addr),
           BusOp.opWrite bus.open_ret [0xAC, 0x33, 0x00],
           BusOp.opUsleep 80000,
           BusOp.opRead bus.open_ret 7,
           BusOp.opClose bus.open_ret])) ∧
    (0 ≤ bus.open_ret → 0 ≤ bus.ioctl_ret → bus.write_ret = 3 → bus.read_ret = 7 →
      run_once bus dev addr =
        (decode bus.read_buf,
          [BusOp.opOpen dev,
           BusOp.opIoctl bus.open_ret (if addr = 0 then AHT30_ADDR_DEFAULT else addr),
           BusOp.opWrite bus.open_ret [0xAC, 0x33, 0x00],
           BusOp.opUsleep 80000,
           BusOp.opRead bus.open_ret 7,
           BusOp.opClose bus.open_ret])) ∧
    (∀ (d e1 e2 e3 e4 : String) (a : Int) (c r : Nat),
      List.Pairwise (fun s1 s2 : String => s1 ≠ s2)
        [open_failed_text d e1, select_failed_text a e2, write_failed_text e3,
         read_failed_text e4, crc_mismatch_text c r]) := by
  rw [run_once_eq]
  refine ⟨?_, ?_, ?_, ?_, ?_, failure_texts_distinct⟩
  · intro h1
    rw [if_pos h1]
  · intro h1 h2
    rw [if_neg (not_lt.mpr h1), if_pos h2]
  · intro h1 h2 h3
    rw [if_neg (not_lt.mpr h1), if_neg (not_lt.mpr h2), if_pos h3]
  · intro h1 h2 h3 h4
    rw [if_neg (not_lt.mpr h1), if_neg (not_lt.mpr h2), if_neg (not_not.mpr h3), if_pos h4]
  · intro h1 h2 h3 h4
    rw [if_neg (not_lt.mpr h1), if_neg (not_lt.mpr h2), if_neg (not_not.mpr h3),
      if_neg (not_not.mpr h4)]
    rfl

/-- C7: when `open` succeeds the trace of the call ends with the one and only
`close` of the handle, so the handle is closed exactly once before the return and
no select, write or read follows the close, on every exit path; when `open`
fails the trace contains no `close`. -/
theorem handle_closed_exactly_once (bus : Bus) (dev : String) (addr : Int) :
    (0 ≤ bus.open_ret →
      ∃ pre : List BusOp,
        (run_once bus dev addr).2 = pre ++ [BusOp.opClose bus.open_ret] ∧
        pre.head? = some (BusOp.opOpen dev) ∧
        (∀ op ∈ pre, ∀ fd, op ≠ BusOp.opClose fd) ∧
        (run_once bus dev addr).2.count (BusOp.opClose bus.open_ret) = 1) ∧
    (bus.open_ret < 0 →
      (run_once bus dev addr).2 = [BusOp.opOpen dev] ∧
      ∀ op ∈ (run_once bus dev addr).2, ∀ fd, op ≠ BusOp.opClose fd) := by
  rw [run_once_eq]
  constructor
  · intro h1
    rw [if_neg (not_lt.mpr h1)]
    by_cases h2 : bus.ioctl_ret < 0
    · rw [if_pos h2]
      exact ⟨[BusOp.opOpen dev, BusOp.opIoctl bus.open_ret _], rfl, rfl, by simp, by simp⟩
    · rw [if_neg h2]
      by_cases h3 : bus.write_ret ≠ 3
      · rw [if_pos h3]
        exact ⟨[BusOp.opOpen dev, BusOp.opIoctl bus.open_ret _, BusOp.opWrite bus.open_ret _],
          rfl, rfl, by simp, by simp⟩
      · rw [if_neg h3]
        by_cases h4 : bus.read_ret ≠ 7
        · rw [if_pos h4]
          exact ⟨[BusOp.opOpen dev, BusOp.opIoctl bus.open_ret _,
            BusOp.opWrite bus.open_ret _, BusOp.opUsleep _, BusOp.opRead bus.open_ret _],
            rfl, rfl, by simp, by simp⟩
        · rw [if_neg h4]
          exact ⟨[BusOp.opOpen dev, BusOp.opIoctl bus.open_ret _,
            BusOp.opWrite bus.open_ret _, BusOp.opUsleep _, BusOp.opRead bus.open_ret _],
            rfl, rfl, by simp, by simp [full_trace]⟩
  · intro h1
    rw [if_pos h1]
    exact ⟨rfl, by simp⟩

/-- Witness of `bus_steps_in_order`: a short write (1 of 3 bytes) stops the call
after the write; only the close follows. -/
theorem bus_steps_in_order_witness :
    run_once
        { open_ret := 3, ioctl_ret := 0, write_ret := 1, read_ret := 7, read_buf := [],
          open_errno := "", ioctl_errno := "", write_errno := "Remote I/O error",
          read_errno := "" } "/dev/i2c-1" 0 =
      ({ ok := false, reading := {},
         error := write_failed_text "Remote I/O error" },
        [BusOp.opOpen "/dev/i2c-1", BusOp.opIoctl 3 0x38, BusOp.opWrite 3 [0xAC, 0x33, 0x00],
         BusOp.opClose 3]) :=
  (bus_steps_in_order
    { open_ret := 3, ioctl_ret := 0, write_ret := 1, read_ret := 7, read_buf := [],
      open_errno := "", ioctl_errno := "", write_errno := "Remote I/O error",
      read_errno := "" } "/dev/i2c-1" 0).2.2.1 (by decide) (by decide) (by decide)

/-- Witness of `handle_closed_exactly_once`: with a failed address selection on
descriptor 3 the trace holds `close 3` exactly once. -/
theorem handle_closed_exactly_once_witness :
    (run_once
        { open_ret := 3, ioctl_ret := -1, write_ret := 3, read_ret := 7, read_buf := [],
          open_errno := "", ioctl_errno := "No such device", write_errno := "",
          read_errno := "" } "/dev/i2c-1" 0x38).2.count (BusOp.opClose 3) = 1 :=
  (Exists.choose_spec
    ((handle_closed_exactly_once
      { open_ret := 3, ioctl_ret := -1, write_ret := 3, read_ret := 7, read_buf := [],
        open_errno := "", ioctl_errno := "No such device", write_errno := "",
        read_errno := "" } "/dev/i2c-1" 0x38).1 (by decide))).2.2.2

/-! ## Two calls on one bus -/

theorem project_append (c : Bool) (a b : List (Bool × BusOp)) :
    project c (a ++ b) = project c a ++ project c b := by
  simp [project]

theorem project_map_same (c : Bool) (t : List BusOp) :
    project c (t.map (fun a => (c, a))) = t := by
  induction t with
  | nil => rfl
  | cons a t ih =>
    unfold project at ih ⊢
    simp only [List.map_cons, List.filter_cons, beq_self_eq_true, if_true]
    rw [ih]

theorem project_map_other (c d : Bool) (h : d ≠ c) (t : List BusOp) :
    project c (t.map (fun a => (d, a))) = [] := by
  have hdc : (d == c) = false := by cases c <;> cases d <;> simp_all
  induction t with
  | nil => rfl
  | cons a t ih =>
    unfold project at ih ⊢
    simp only [List.map_cons, List.filter_cons, hdc]
    exact ih

theorem tag_at_map_append (c d : Bool) (a b : List BusOp) (i : Nat)
    (hi : i < a.length + b.length) :
    tag_at (a.map (fun x => (c, x)) ++ b.map (fun x => (d, x))) i =
      if i < a.length then c else d := by
  unfold tag_at
  by_cases h : i < a.length
  · rw [if_pos h, List.getD_append _ _ _ _ (by simpa using h),
      List.getD_eq_getElem _ _ (by simpa using h)]
    simp
  · rw [if_neg h, List.getD_append_right _ _ _ _ (by simpa using h),
      List.getD_eq_getElem _ _ (by simp; omega)]
    simp

theorem mutualExclusion_map_append (c d : Bool) (a b : List BusOp) :
    MutualExclusion (a.map (fun x => (c, x)) ++ b.map (fun x => (d, x))) := by
  intro k hk j hj i hi ⟨_, _, htag⟩
  have hlen : (a.map (fun x => (c, x)) ++ b.map (fun x => (d, x))).length =
      a.length + b.length := by simp
  rw [hlen] at hk
  rw [tag_at_map_append c d a b i (by omega), tag_at_map_append c d a b k hk] at htag
  rw [tag_at_map_append c d a b j (by omega), tag_at_map_append c d a b i (by omega)]
  by_cases h1 : i < a.length
  · by_cases h3 : k < a.length
    · rw [if_pos h1, if_pos (by omega)]
    · rw [if_pos h1, if_neg h3] at htag
      rw [if_pos h1, ← htag]
      split <;> rfl
  · rw [if_neg h1, if_neg (by omega)]

theorem trace_head (bus : Bus) (dev : String) (addr : Int) :
    ∃ rest, (run_once bus dev addr).2 = BusOp.opOpen dev :: rest := by
  rw [run_once_eq]
  split
  · exact ⟨_, rfl⟩
  · split
    · exact ⟨_, rfl⟩
    · split
      · exact ⟨_, rfl⟩
      · split
        · exact ⟨_, rfl⟩
        · exact ⟨_, rfl⟩

theorem trace_open_close (bus : Bus) (dev : String) (addr : Int) (h : 0 ≤ bus.open_ret) :
    ∃ mid, (run_once bus dev addr).2 =
      BusOp.opOpen dev :: (mid ++ [BusOp.opClose bus.open_ret]) := by
  rw [run_once_eq, if_neg (not_lt.mpr h)]
  split
  · exact ⟨[_], rfl⟩
  · split
    · exact ⟨[_, _], rfl⟩
    · split
      · exact ⟨[_, _, _, _], rfl⟩
      · exact ⟨[_, _, _, _], rfl⟩

theorem nested_not_exclusive (c : Bool) (o1 o2 : BusOp) (mid rest2 : List BusOp) (fd : Int)
    (ho : is_open o1 = true) :
    ¬ MutualExclusion
      ([o1].map (fun a => (c, a)) ++
        ((o2 :: rest2).map (fun a => (!c, a)) ++
          (mid ++ [BusOp.opClose fd]).map (fun a => (c, a)))) := by
  intro hme
  have hshape : [o1].map (fun a => (c, a)) ++
        ((o2 :: rest2).map (fun a => (!c, a)) ++
          (mid ++ [BusOp.opClose fd]).map (fun a => (c, a))) =
      ((c, o1) :: (!c, o2) :: (rest2.map (fun a => (!c, a)) ++ mid.map (fun a => (c, a)))) ++
        [(c, BusOp.opClose fd)] := by
    simp
  rw [hshape] at hme
  generalize hp : ((c, o1) :: (!c, o2) ::
    (rest2.map (fun a => (!c, a)) ++ mid.map (fun a => (c, a)))) = pre at hme
  have hpl : 2 ≤ pre.length := by rw [← hp]; simp
  have hlast : (pre ++ [(c, BusOp.opClose fd)]).getD pre.length (true, BusOp.opUsleep 0) =
      (c, BusOp.opClose fd) := by
    rw [List.getD_append_right _ _ _ _ (le_refl _)]
    simp
  have h0 : (pre ++ [(c, BusOp.opClose fd)]).getD 0 (true, BusOp.opUsleep 0) = (c, o1) := by
    rw [← hp]; rfl
  have h1 : (pre ++ [(c, BusOp.opClose fd)]).getD 1 (true, BusOp.opUsleep 0) = (!c, o2) := by
    rw [← hp]; rfl
  have h := hme pre.length (by simp) 1 (by omega) 0 (by norm_num)
    ⟨by unfold op_at; rw [h0]; exact ho, by unfold op_at; rw [hlast]; rfl,
      by unfold tag_at; rw [h0, hlast]⟩
  unfold tag_at at h
  rw [h0, h1] at h
  cases c <;> simp at h

theorem second_inside_first_spec (t1 t2 : List BusOp) :
    IsInterleaving t1 t2 (second_inside_first t1 t2) := by
  unfold IsInterleaving second_inside_first
  constructor
  · rw [project_append, project_append, project_map_same,
      project_map_other false true (by decide), project_map_same, List.nil_append,
      List.take_append_drop]
  · rw [project_append, project_append, project_map_same,
      project_map_other true false (by decide), project_map_other true false (by decide),
      List.nil_append, List.append_nil]

theorem first_inside_second_spec (t1 t2 : List BusOp) :
    IsInterleaving t1 t2 (first_inside_second t1 t2) := by
  unfold IsInterleaving first_inside_second
  constructor
  · rw [project_append, project_append, project_map_same,
      project_map_other false true (by decide), project_map_other false true (by decide),
      List.nil_append, List.append_nil]
  · rw [project_append, project_append, project_map_same,
      project_map_other true false (by decide), project_map_same, List.nil_append,
      List.take_append_drop]

set_option maxRecDepth 100000 in
/-- C9 as stated fails: two `/read` requests served at the same time, each
calling `read_aht30_once("/dev/i2c-1", 0x38)` with every step succeeding, have an
interleaving of their system calls in which the second call opens the device
before the first has closed it and the two write-wait-read sequences alternate;
nothing in either call excludes it. -/
theorem concurrent_calls_can_interleave :
    IsInterleaving
      (run_once (good_bus_fd 3 [0x00, 0x33, 0x33, 0x33, 0x33, 0x33, 0x60]) "/dev/i2c-1" 0x38).2
      (run_once (good_bus_fd 4 [0x00, 0x33, 0x33, 0x33, 0x33, 0x33, 0x60]) "/dev/i2c-1" 0x38).2
      racing_schedule ∧
    ¬ MutualExclusion racing_schedule ∧
    ¬ ∀ m : List (Bool × BusOp),
      IsInterleaving
        (run_once (good_bus_fd 3 [0x00, 0x33, 0x33, 0x33, 0x33, 0x33, 0x60])
          "/dev/i2c-1" 0x38).2
        (run_once (good_bus_fd 4 [0x00, 0x33, 0x33, 0x33, 0x33, 0x33, 0x60])
          "/dev/i2c-1" 0x38).2 m →
      MutualExclusion m := by
  have h1 : IsInterleaving
      (run_once (good_bus_fd 3 [0x00, 0x33, 0x33, 0x33, 0x33, 0x33, 0x60]) "/dev/i2c-1" 0x38).2
      (run_once (good_bus_fd 4 [0x00, 0x33, 0x33, 0x33, 0x33, 0x33, 0x60]) "/dev/i2c-1" 0x38).2
      racing_schedule := by decide
  have h2 : ¬ MutualExclusion racing_schedule := by decide
  exact ⟨h1, h2, fun h => h2 (h _ h1)⟩

/-- C9, amended: `read_aht30_once` takes no lock.  The system calls of two
calls do not interleave when the calls run one after the other, in either
order: that schedule is an interleaving of the two traces and satisfies the
mutual exclusion around open..close.  For calls that run at the same time the
exclusion is not provided: whenever the `open` of one call succeeds there is an
interleaving of the two traces in which the other call's `open` lies between
that `open` and its `close`. -/
theorem calls_exclusive_when_sequential (bus1 bus2 : Bus) (dev1 dev2 : String)
    (addr1 addr2 : Int) :
    (IsInterleaving (run_once bus1 dev1 addr1).2 (run_once bus2 dev2 addr2).2
        (first_then_second (run_once bus1 dev1 addr1).2 (run_once bus2 dev2 addr2).2) ∧
      MutualExclusion
        (first_then_second (run_once bus1 dev1 addr1).2 (run_once bus2 dev2 addr2).2)) ∧
    (IsInterleaving (run_once bus1 dev1 addr1).2 (run_once bus2 dev2 addr2).2
        (second_then_first (run_once bus1 dev1 addr1).2 (run_once bus2 dev2 addr2).2) ∧
      MutualExclusion
        (second_then_first (run_once bus1 dev1 addr1).2 (run_once bus2 dev2 addr2).2)) ∧
    (0 ≤ bus1.open_ret →
      IsInterleaving (run_once bus1 dev1 addr1).2 (run_once bus2 dev2 addr2).2
        (second_inside_first (run_once bus1 dev1 addr1).2 (run_once bus2 dev2 addr2).2) ∧
      ¬ MutualExclusion
        (second_inside_first (run_once bus1 dev1 addr1).2 (run_once bus2 dev2 addr2).2)) ∧
    (0 ≤ bus2.open_ret →
      IsInterleaving (run_once bus1 dev1 addr1).2 (run_once bus2 dev2 addr2).2
        (first_inside_second (run_once bus1 dev1 addr1).2 (run_once bus2 dev2 addr2).2) ∧
      ¬ MutualExclusion
        (first_inside_second (run_once bus1 dev1 addr1).2 (run_once bus2 dev2 addr2).2)) := by
  refine ⟨⟨⟨?_, ?_⟩, mutualExclusion_map_append _ _ _ _⟩,
    ⟨⟨?_, ?_⟩, mutualExclusion_map_append _ _ _ _⟩, ?_, ?_⟩
  · unfold first_then_second
    rw [project_append, project_map_same, project_map_other false true (by decide),
      List.append_nil]
  · unfold first_then_second
    rw [project_append, project_map_same, project_map_other true false (by decide),
      List.nil_append]
  · unfold second_then_first
    rw [project_append, project_map_same, project_map_other false true (by decide),
      List.nil_append]
  · unfold second_then_first
    rw [project_append, project_map_same, project_map_other true false (by decide),
      List.append_nil]
  · intro h
    refine ⟨second_inside_first_spec _ _, ?_⟩
    obtain ⟨mid, hm⟩ := trace_open_close bus1 dev1 addr1 h
    obtain ⟨rest2, hr⟩ := trace_head bus2 dev2 addr2
    rw [hm, hr]
    exact nested_not_exclusive false _ _ mid rest2 _ rfl
  · intro h
    refine ⟨first_inside_second_spec _ _, ?_⟩
    obtain ⟨mid, hm⟩ := trace_open_close bus2 dev2 addr2 h
    obtain ⟨rest1, hr⟩ := trace_head bus1 dev1 addr1
    rw [hm, hr]
    exact nested_not_exclusive true _ _ mid rest1 _ rfl

set_option maxRecDepth 100000 in
/-- Witness of `calls_exclusive_when_sequential`: two complete reads on
descriptors 3 and 4; the second call placed inside the first breaks the
exclusion. -/
theorem calls_exclusive_when_sequential_witness :
    (0 : Int) ≤ (good_bus_fd 3 [0x00, 0x33, 0x33, 0x33, 0x33, 0x33, 0x60]).open_ret ∧
    ¬ MutualExclusion
      (second_inside_first
        (run_once (good_bus_fd 3 [0x00, 0x33, 0x33, 0x33, 0x33, 0x33, 0x60])
          "/dev/i2c-1" 0x38).2
        (run_once (good_bus_fd 4 [0x00, 0x33, 0x33, 0x33, 0x33, 0x33, 0x60])
          "/dev/i2c-1" 0x38).2) :=
  ⟨by decide,
   ((calls_exclusive_when_sequential
      (good_bus_fd 3 [0x00, 0x33, 0x33, 0x33, 0x33, 0x33, 0x60])
      (good_bus_fd 4 [0x00, 0x33, 0x33, 0x33, 0x33, 0x33, 0x60])
      "/dev/i2c-1" "/dev/i2c-1" 0x38 0x38).2.2.1 (by decide)).2⟩

end Aht30
